import Mathlib

/-!
Verification of the ConcertsVienna pipeline (web scraper, MusicBrainz /
Spotify API adapters, PostgreSQL repository) against its specification.

The Python modules `web_logger.py`, `api_logger.py`, `safe_data.py` and the
driver `main.py` are shallowly embedded below: pure string manipulation
becomes functions on `List Char` / `String`, fallible Python code (dict /
list indexing that can raise, HTTP requests that can fail) becomes
`Except PyErr` / `Option`, and the write-once database state becomes an
explicit record of table contents threaded through the fill operations.
-/

namespace ConcertsVienna

/-- Python runtime errors that the embedded fragments can raise. -/
inductive PyErr where
  | typeError
  | keyError
  | indexError
deriving DecidableEq, Repr

/-! ## String primitives (Python `str.split`)

`web_logger.py` uses `text.split(' ')[1]`, `text.split(' live')[0]` and
`text.split(',')[0]`.  Python's `str.split(sep)` cuts at leftmost,
non-overlapping occurrences of the (non-empty) separator, so

* element `[0]` is everything before the first occurrence of `sep`
  (the whole string if `sep` does not occur), and
* element `[1]` exists iff `sep` occurs, and is then everything strictly
  between the first occurrence and the next one.
-/

/-- `beginsWith sep s` : does the character list `s` start with `sep`?
(Embeds the test "does the separator match at the current position".) -/
def beginsWith : List Char → List Char → Bool
  | [], _ => true
  | _ :: _, [] => false
  | a :: sep, b :: s => a == b && beginsWith sep s

/-- Characters of `s` strictly before the first occurrence of the
separator `sep`; all of `s` when `sep` does not occur.  This is Python's
`s.split(sep)[0]`. -/
def takeUntil (sep : List Char) : List Char → List Char
  | [] => []
  | c :: s => if beginsWith sep (c :: s) then [] else c :: takeUntil sep s

/-- The remainder of `s` strictly after the first occurrence of `sep`,
or `none` when `sep` does not occur in `s`. -/
def dropThrough (sep : List Char) : List Char → Option (List Char)
  | [] => none
  | c :: s =>
    if beginsWith sep (c :: s) then some (List.drop sep.length (c :: s))
    else dropThrough sep s

/-- Python's `s.split(sep)[1]`: raises `IndexError` when `sep` does not
occur in `s`, otherwise yields the text between the first occurrence of
`sep` and the next one. -/
def splitSecond (sep : List Char) (s : List Char) : Except PyErr (List Char) :=
  match dropThrough sep s with
  | none => .error .indexError
  | some r => .ok (takeUntil sep r)

/-- Whether `sep` occurs anywhere in `s` as a contiguous sublist. -/
def hasOcc (sep : List Char) (s : List Char) : Bool :=
  (dropThrough sep s).isSome

/-! ## Web scraper (`web_logger.py`, `ConcertsData.collect_data`)

A scraped page is a list of month sections; each section carries the raw
text of its date cells, artist cells and location cells (the
`find_all(class_=...)` results, in document order). -/

/-- One `ph-concerts-list is-3col` month section: the `.text` of its
date, artist and location sub-elements, in document order. -/
structure MonthSection where
  dateCells : List String
  artistCells : List String
  locationCells : List String
deriving Repr, DecidableEq

/-- `date.text.split(' ')[1]` — raises `IndexError` when the cell text
contains no space. -/
def processDate (s : String) : Except PyErr String :=
  match splitSecond [' '] s.data with
  | .error e => .error e
  | .ok cs => .ok (String.mk cs)

/-- `artist.text.split(' live')[0]`. -/
def processArtist (s : String) : String :=
  String.mk (takeUntil " live".data s.data)

/-- `location.text.split(',')[0]`. -/
def processLocation (s : String) : String :=
  String.mk (takeUntil [','] s.data)

/-- The list-building loop of `ConcertsData.collect_data`: walks the
month sections in order, appending the processed date, artist and
location cell texts of each section to the three lists.  Only the date
processing can raise (`split(' ')[1]`). -/
def collect_data : List MonthSection → Except PyErr (List String × List String × List String)
  | [] => .ok ([], [], [])
  | m :: rest =>
    match m.dateCells.mapM processDate with
    | .error e => .error e
    | .ok ds =>
      match collect_data rest with
      | .error e => .error e
      | .ok (drest, arest, lrest) =>
        .ok (ds ++ drest, m.artistCells.map processArtist ++ arest,
             m.locationCells.map processLocation ++ lrest)

/-! ## MusicBrainz adapter (`api_logger.py`, class `ArtistInfos`) -/

/-- `ArtistInfos.api_request`: performs the GET request; on a
`RequestException` it prints a message and falls through, returning
`None`.  The HTTP outcome is the argument: `.ok v` a successful request
with decoded JSON `v`, `.error ()` a raised `RequestException`. -/
def api_request {α : Type} (response : Except Unit α) : Option α :=
  match response with
  | .ok v => some v
  | .error _ => none

/-- JSON payload of the artist search endpoint, as far as
`get_artist_id` inspects it: the `artists` key may be absent (`none`),
and when present holds the list of result ids (each result's `id`
field), in response order. -/
structure ArtistSearchResp where
  artists : Option (List String)
deriving Repr, DecidableEq

/-- `ArtistInfos.get_artist_id`, applied to the value of
`api_request(request_url)`.  Mirrors the Python statement by statement:
`'artists' in query_data` raises `TypeError` when `query_data` is `None`
(the connection-failure case); a missing `artists` key falls off the end
of the function (implicit `None`); an empty result list returns `None`;
otherwise the first result's id is returned. -/
def get_artist_id (query_data : Option ArtistSearchResp) : Except PyErr (Option String) :=
  match query_data with
  | none => .error .typeError
  | some resp =>
    match resp.artists with
    | none => .ok none
    | some [] => .ok none
    | some (i :: _) => .ok (some i)

/-- One release-group of the release-group search payload, as far as
`get_album_names` inspects it: the names in its `artist-credit` array
(in order) and its `title`. -/
structure ReleaseGroup where
  artistCredit : List String
  title : String
deriving Repr, DecidableEq

/-- The loop body of `get_album_names`: walks the release-groups in
payload order, raising `IndexError` at the first release-group whose
`artist-credit` array is empty (`[0]`), and otherwise appending the
title whenever the first credited name equals the queried name. -/
def albumsLoop (name : String) : List ReleaseGroup → Except PyErr (List String)
  | [] => .ok []
  | rg :: rest =>
    match rg.artistCredit with
    | [] => .error .indexError
    | first :: _ =>
      match albumsLoop name rest with
      | .error e => .error e
      | .ok tail => .ok (if first = name then rg.title :: tail else tail)

/-- `ArtistInfos.get_album_names`, applied to the value of
`api_request(request_url)`: `album_data` absent (connection failure)
makes `'release-groups' in album_data` raise `TypeError`; a payload
without the `release-groups` key skips the loop and returns `[]`;
otherwise the loop above runs. -/
def get_album_names (name : String) (album_data : Option (Option (List ReleaseGroup))) :
    Except PyErr (List String) :=
  match album_data with
  | none => .error .typeError
  | some none => .ok []
  | some (some rgs) => albumsLoop name rgs

/-! ## Spotify adapter (`api_logger.py`, class `SpotifyAPI`) and the
interactive step of `main.py` -/

/-- `SpotifyAPI.search_artist`, applied to the decoded
`['artists']['items']` array (modelled by the ids of its entries): the
first entry's id, or `None` when the array is empty. -/
def search_artist (items : List String) : Option String :=
  match items with
  | [] => none
  | i :: _ => some i

/-- `SpotifyAPI.get_songs`.  The URL is built by f-string interpolation,
so a `None` artist id becomes the literal text `None` inside the URL.
`tracksOf` maps each request URL to the decoded response's `tracks`
value (`none` when the payload has no `tracks` key, in which case
`json.loads(result.content)['tracks']` raises `KeyError`). -/
def get_songs (tracksOf : String → Option (List String)) (artist_id : Option String) :
    Except PyErr (List String) :=
  let idText := match artist_id with
    | none => "None"
    | some i => i
  let url := "https://api.spotify.com/v1/artists/" ++ idText ++ "/top-tracks"
  match tracksOf url with
  | none => .error .keyError
  | some ts => .ok ts

/-- The interactive lookup of `main.py` (lines 44–50): search the
catalog for the typed name, then fetch and print the top tracks of the
returned id.  There is no branch on the search returning `None`: the
`None` id is passed straight to `get_songs`.  The result is the list of
printed lines (the header followed by one numbered line per track), or
the raised error. -/
def interactiveLookup (input_artist : String) (items : List String)
    (tracksOf : String → Option (List String)) : Except PyErr (List String) :=
  let spotify_id := search_artist items
  match get_songs tracksOf spotify_id with
  | .error e => .error e
  | .ok songs =>
    .ok (("\nHere are the top tracks of " ++ input_artist ++ ":")
      :: songs.enum.map (fun p => toString (p.1 + 1) ++ ". " ++ p.2))

/-! ## Repository (`safe_data.py`, class `ManageDatabase`)

The five tables of schema `concerts_vienna`, created empty by
`create_tables` and only ever appended to.  `SERIAL` primary keys start
at 1, so the row at list index `i` has id `i + 1`.  Nullable columns are
`Option`-valued.  `cursor.fetchone()` after a `SELECT ... WHERE name = x`
yields the first matching row or `None`; `psycopg2` renders a `None`
parameter as SQL `NULL`, and `name = NULL` matches no row. -/

/-- A row of `concerts_vienna.artists` (minus the serial key). -/
structure ArtistRow where
  area_id : Option Nat
  artist_name : String
  mb_id : Option String
deriving Repr, DecidableEq

/-- A row of `concerts_vienna.concerts_data` (minus the serial key);
the date is kept as its source string. -/
structure ConcertRow where
  location_id : Option Nat
  artist_id : Option Nat
  date : String
deriving Repr, DecidableEq

/-- A row of `concerts_vienna.albums` (minus the serial key). -/
structure AlbumRow where
  artist_id : Option Nat
  album_name : String
deriving Repr, DecidableEq

/-- The contents of the five tables; `locations` and `areas` are their
name columns (ids are positional). -/
structure DBState where
  locations : List String
  areas : List String
  artists : List ArtistRow
  concerts_data : List ConcertRow
  albums : List AlbumRow
deriving Repr, DecidableEq

/-- `SELECT <id> FROM <table> WHERE <name-column> = key` followed by
`fetchone()`: the id of the first row whose name equals `key` exactly,
or `none`. -/
def lookupId (names : List String) (key : String) : Option Nat :=
  (names.findIdx? (fun n => n == key)).map (· + 1)

/-- The same lookup with a nullable key (`fill_artists_table` passes the
artist's area, which may be `None`): `name = NULL` matches no row. -/
def lookupIdOpt (names : List String) (key : Option String) : Option Nat :=
  match key with
  | none => none
  | some k => lookupId names k

/-- Lookup of an artist id by name in the artists table
(`SELECT artist_id FROM concerts_vienna.artists WHERE artist_name = %s`). -/
def lookupArtist (rows : List ArtistRow) (key : String) : Option Nat :=
  (rows.findIdx? (fun r => r.artist_name == key)).map (· + 1)

/-- One scraped concert (a row of the `concerts_data_df` DataFrame). -/
structure SourceRow where
  date : String
  artist : String
  location : String
deriving Repr, DecidableEq

/-- Enrichment data for one artist, as stored in `artists_data_dicti`:
`(area, mb_id)`. -/
structure ArtistMeta where
  area : Option String
  mb_id : Option String
deriving Repr, DecidableEq

/-- `ManageDatabase.fill_locations_table`: inserts each list element as
a new row. -/
def fill_locations_table (st : DBState) (lst : List String) : DBState :=
  { st with locations := st.locations ++ lst }

/-- `ManageDatabase.fill_areas_table`: inserts each list element as a
new row. -/
def fill_areas_table (st : DBState) (lst : List String) : DBState :=
  { st with areas := st.areas ++ lst }

/-- `ManageDatabase.fill_artists_table`: for each dictionary item in
insertion order, looks up the area id by the artist's area name (a miss
or a `None` area gives `None`) and inserts the artist row.  The areas
table is not modified by the loop, so every lookup sees the same table. -/
def fill_artists_table (st : DBState) (dicti : List (String × ArtistMeta)) : DBState :=
  { st with artists := st.artists ++
      dicti.map (fun e => ⟨lookupIdOpt st.areas e.2.area, e.1, e.2.mb_id⟩) }

/-- `ManageDatabase.fill_albums_table`: for each artist, looks up the
artist id by name and, when the album list is non-empty, inserts one row
per album name (an empty list inserts nothing). -/
def fill_albums_table (st : DBState) (dicti : List (String × List String)) : DBState :=
  { st with albums := st.albums ++
      dicti.flatMap (fun e => e.2.map (fun al => ⟨lookupArtist st.artists e.1, al⟩)) }

/-- `ManageDatabase.fill_concerts_table`: for each DataFrame row in
order, looks up the location id and the artist id by name (a miss gives
`None`) and inserts the concert row. -/
def fill_concerts_table (st : DBState) (df : List SourceRow) : DBState :=
  { st with concerts_data := st.concerts_data ++
      df.map (fun r => ⟨lookupId st.locations r.location, lookupArtist st.artists r.artist, r.date⟩) }

/-! ## Pipeline (`main.py`, collect-data and database sections) -/

/-- Helper for `pyUnique`: walks the list keeping the elements not
already seen, in order. -/
def pyUniqueAux {α : Type} [DecidableEq α] (seen : List α) : List α → List α
  | [] => []
  | x :: xs => if x ∈ seen then pyUniqueAux seen xs else x :: pyUniqueAux (x :: seen) xs

/-- `pandas.Series.unique` on object dtype (also
`DataFrame[col].unique().tolist()`): deduplication keeping the first
occurrence of each value, in order. -/
def pyUnique {α : Type} [DecidableEq α] (l : List α) : List α :=
  pyUniqueAux [] l

/-- `areas_lst` of `main.py`:
`artists_data_df['Area'].dropna().unique().tolist()` — the areas of the
enriched artists in dictionary order, `None`s dropped, then deduplicated
keeping first occurrences. -/
def areasListOf (artists_data : List (String × ArtistMeta)) : List String :=
  pyUnique ((artists_data.map (fun e => e.2.area)).filterMap id)

/-- The database section of `main.py`, run on the scraped DataFrame rows
and the two enrichment dictionaries (`artists_data_dicti`,
`albums_data_dicti`, both keyed by `artists_names` in first-appearance
order): starting from the freshly created empty tables, fills locations,
areas, artists, albums and concerts_data, in that order. -/
def runPipeline (rows : List SourceRow) (meta : String → ArtistMeta)
    (albumsOf : String → List String) : DBState :=
  let artists_names := pyUnique (rows.map (fun r => r.artist))
  let artists_data := artists_names.map (fun a => (a, meta a))
  let albums_data := artists_names.map (fun a => (a, albumsOf a))
  let locations_lst := pyUnique (rows.map (fun r => r.location))
  let st0 : DBState := ⟨[], [], [], [], []⟩
  let st1 := fill_locations_table st0 locations_lst
  let st2 := fill_areas_table st1 (areasListOf artists_data)
  let st3 := fill_artists_table st2 artists_data
  let st4 := fill_albums_table st3 albums_data
  fill_concerts_table st4 rows

/-- The success value of `processDate`: the text between the first space
of the cell and the next one (meaningful when the cell contains a
space). -/
def processedDate (s : String) : String :=
  String.mk (takeUntil [' '] ((dropThrough [' '] s.data).getD []))

/-- The concert entries of a scraped page in source order: for each
month section, its date, artist and location cell texts paired up
positionally. -/
def sourceEntries (months : List MonthSection) : List (String × String × String) :=
  months.flatMap (fun m => m.dateCells.zip (m.artistCells.zip m.locationCells))

/-! ## Date parsing (`pd.to_datetime(..., format='%d.%m.%Y')`)

`collect_data` converts the `Date` column with the fixed format
`%d.%m.%Y`.  The library call is embedded for zero-padded inputs: ten
characters `dd.mm.yyyy`, all digit positions decimal digits, and the
numbers a valid Gregorian calendar date. -/

/-- Numeric value of a decimal digit character. -/
def charVal (c : Char) : Nat := c.toNat - 48

/-- Is `c` one of `'0'`–`'9'`? -/
def isDig (c : Char) : Bool := 48 ≤ c.toNat && c.toNat ≤ 57

/-- The digit character of `n < 10`. -/
def digCh (n : Nat) : Char := Char.ofNat (48 + n)

/-- Number of days of month `m` in year `y` (Gregorian leap rule). -/
def daysInMonth (m y : Nat) : Nat :=
  if m = 2 then
    if y % 4 = 0 ∧ (y % 100 ≠ 0 ∨ y % 400 = 0) then 29 else 28
  else if m = 4 ∨ m = 6 ∨ m = 9 ∨ m = 11 then 30
  else 31

/-- Is `(d, m, y)` a valid Gregorian calendar date? -/
def validDMY (d m y : Nat) : Bool :=
  1 ≤ m && m ≤ 12 && 1 ≤ d && d ≤ daysInMonth m y

/-- `pd.to_datetime(s, format='%d.%m.%Y')` on zero-padded input: accepts
exactly the ten-character strings `dd.mm.yyyy` whose digit positions are
decimal digits and that denote a valid calendar date, yielding the
`(day, month, year)` triple; everything else is a parse failure. -/
def parseDate (s : String) : Option (Nat × Nat × Nat) :=
  match s.data with
  | [d1, d2, p1, m1, m2, p2, y1, y2, y3, y4] =>
    if p1 = '.' ∧ p2 = '.' ∧
        isDig d1 ∧ isDig d2 ∧ isDig m1 ∧ isDig m2 ∧
        isDig y1 ∧ isDig y2 ∧ isDig y3 ∧ isDig y4 then
      let d := 10 * charVal d1 + charVal d2
      let m := 10 * charVal m1 + charVal m2
      let y := 1000 * charVal y1 + 100 * charVal y2 + 10 * charVal y3 + charVal y4
      if validDMY d m y then some (d, m, y) else none
    else none
  | _ => none

/-- `strftime('%d.%m.%Y')` for `d, m < 100` and `y < 10000`: renders the
zero-padded `dd.mm.yyyy` string of the date. -/
def formatDate (d m y : Nat) : String :=
  String.mk [digCh (d / 10), digCh (d % 10), '.',
             digCh (m / 10), digCh (m % 10), '.',
             digCh (y / 1000), digCh (y / 100 % 10), digCh (y / 10 % 10), digCh (y % 10)]

/-! ## Spec-side reference definition for the artist-name cleanup -/

/-- Modelled from the spec's words (refinement reference for the
artist-name cleanup): "artist strings have a trailing \" live\" suffix
stripped", and are otherwise unchanged — remove the suffix `" live"`
when the label ends with it, else return the label as is. -/
def specTrailingStrip (s : String) : String :=
  if " live".data.isSuffixOf s.data then String.mk (s.data.take (s.data.length - 5))
  else s

/-! # Theorems

## Properties of the split primitives -/

theorem beginsWith_iff : ∀ (sep s : List Char), beginsWith sep s = true ↔ ∃ t, s = sep ++ t
  | [], s => by simp [beginsWith]
  | _ :: _, [] => by simp [beginsWith]
  | a :: sep, b :: s => by
    simp only [beginsWith, Bool.and_eq_true, beq_iff_eq, beginsWith_iff sep s,
      List.cons_append, List.cons.injEq]
    constructor
    · rintro ⟨rfl, t, rfl⟩
      exact ⟨t, rfl, rfl⟩
    · rintro ⟨t, rfl, rfl⟩
      exact ⟨rfl, t, rfl⟩

theorem takeUntil_eq_self (sep : List Char) :
    ∀ s, dropThrough sep s = none → takeUntil sep s = s
  | [], _ => rfl
  | c :: s, h => by
    unfold dropThrough at h
    unfold takeUntil
    split at h
    · exact absurd h (by simp)
    · next hb =>
      rw [if_neg hb]
      exact congrArg (c :: ·) (takeUntil_eq_self sep s h)

theorem takeUntil_decomp (sep : List Char) :
    ∀ s r, dropThrough sep s = some r → s = takeUntil sep s ++ (sep ++ r)
  | [], r, h => by simp [dropThrough] at h
  | c :: s, r, h => by
    unfold dropThrough at h
    unfold takeUntil
    split at h
    · next hb =>
      rw [if_pos hb]
      obtain ⟨t, ht⟩ := (beginsWith_iff sep (c :: s)).mp hb
      have hr : r = t := by
        have h2 := Option.some.inj h
        have h3 := congrArg (List.drop sep.length) ht
        rw [List.drop_left] at h3
        exact h2.symm.trans h3
      simpa [hr] using ht
    · next hb =>
      rw [if_neg hb]
      have := takeUntil_decomp sep s r h
      simpa using congrArg (c :: ·) this

theorem takeUntil_append_ex (sep s : List Char) : ∃ w, s = takeUntil sep s ++ w := by
  cases h : dropThrough sep s with
  | none => exact ⟨[], by rw [takeUntil_eq_self sep s h, List.append_nil]⟩
  | some r => exact ⟨sep ++ r, takeUntil_decomp sep s r h⟩

theorem dropThrough_takeUntil (sep : List Char) :
    ∀ s, dropThrough sep (takeUntil sep s) = none
  | [] => rfl
  | c :: s => by
    unfold takeUntil
    by_cases hb : beginsWith sep (c :: s) = true
    · rw [if_pos hb]
      rfl
    · rw [if_neg hb]
      unfold dropThrough
      rw [if_neg, dropThrough_takeUntil sep s]
      intro hb'
      obtain ⟨t, ht⟩ := (beginsWith_iff sep (c :: takeUntil sep s)).mp hb'
      obtain ⟨w, hw⟩ := takeUntil_append_ex sep s
      refine hb ((beginsWith_iff sep (c :: s)).mpr ⟨t ++ w, ?_⟩)
      calc c :: s = c :: (takeUntil sep s ++ w) := by rw [← hw]
        _ = (c :: takeUntil sep s) ++ w := rfl
        _ = (sep ++ t) ++ w := by rw [ht]
        _ = sep ++ (t ++ w) := by rw [List.append_assoc]

theorem takeUntil_idem (sep s : List Char) :
    takeUntil sep (takeUntil sep s) = takeUntil sep s :=
  takeUntil_eq_self sep _ (dropThrough_takeUntil sep s)

/-! ## C9 — idempotence of the artist-name cleanup -/

/-- C9: the artist-name cleanup is idempotent — applying the `" live"`
stripping of `collect_data` (`split(' live')[0]`) twice yields the same
result as applying it once, for every input string. -/
theorem artist_cleanup_idempotent (s : String) :
    processArtist (processArtist s) = processArtist s := by
  show String.mk (takeUntil " live".data (takeUntil " live".data s.data)) =
    String.mk (takeUntil " live".data s.data)
  rw [takeUntil_idem]

/-! ## C5 — what the artist-name cleanup actually computes

`split(' live')[0]` truncates at the **first** occurrence of the
substring `" live"` anywhere in the label, not only at a trailing
suffix: on `"A live B"` the code stores `"A"` while trailing-suffix
removal would leave the label unchanged. -/

/-- C5, counterexample: on the label `"A live B"` (whose `" live"`
occurrence is not a trailing suffix) the scraper stores `"A"`, not the
unchanged label that trailing-suffix stripping would produce. -/
theorem artist_cleanup_counterexample :
    processArtist "A live B" = "A" ∧
    specTrailingStrip "A live B" = "A live B" ∧
    processArtist "A live B" ≠ specTrailingStrip "A live B" := by
  refine ⟨rfl, ?_, ?_⟩ <;> decide

/-- C5 (amended): for every artist label, the stored name is the prefix
of the label strictly before the **first** occurrence of the substring
`" live"` — the stored name contains no occurrence of `" live"`, and
the removed remainder is either empty (no occurrence: the label is
unchanged) or begins with `" live"`. -/
theorem artist_cleanup_first_occurrence (s : String) :
    ∃ rest, s.data = (processArtist s).data ++ rest ∧
      hasOcc " live".data (processArtist s).data = false ∧
      (rest = [] ∨ beginsWith " live".data rest = true) := by
  have hocc : hasOcc " live".data (processArtist s).data = false := by
    show (dropThrough " live".data (takeUntil " live".data s.data)).isSome = false
    rw [dropThrough_takeUntil]
    rfl
  cases h : dropThrough " live".data s.data with
  | none =>
    refine ⟨[], ?_, hocc, Or.inl rfl⟩
    show s.data = takeUntil " live".data s.data ++ []
    rw [takeUntil_eq_self _ _ h, List.append_nil]
  | some r =>
    refine ⟨" live".data ++ r, takeUntil_decomp _ _ _ h, hocc, Or.inr ?_⟩
    exact (beginsWith_iff _ _).mpr ⟨r, rfl⟩

/-! ## C2 — `get_artist_id` on failed or degenerate search responses

`api_request` catches a `RequestException` and returns `None`, but
`get_artist_id` then evaluates `'artists' in query_data` on that `None`,
which raises `TypeError` in Python — the connection-failure case does
**not** continue with a `None` result.  The no-results and missing-key
cases do return `None` as claimed. -/

/-- C2, evaluation at the failing input: a connection error makes
`api_request` return the absent payload, on which `get_artist_id`
raises `TypeError` instead of returning `None`; a present payload with
an empty result list or without the `artists` key does return `None`
without raising. -/
theorem get_artist_id_connection_error_raises :
    get_artist_id (api_request (.error ())) = .error .typeError ∧
    get_artist_id (api_request (.ok ⟨some []⟩)) = .ok none ∧
    get_artist_id (api_request (.ok ⟨none⟩)) = .ok none ∧
    get_artist_id (api_request (.ok ⟨some ["id0", "id1"]⟩)) = .ok (some "id0") :=
  ⟨rfl, rfl, rfl, rfl⟩

/-! ## C4 — the interactive lookup on a not-found artist

`main.py` never branches on `search_artist` returning `None`: the
`None` id flows into `get_songs`, which requests
`.../artists/None/top-tracks` and evaluates
`json.loads(result.content)['tracks']` on the error payload, raising
`KeyError`.  No "not found" indication exists on this path. -/

/-- C4, evaluation at the failing input: when the catalog search
returns no match (empty `items`), the interactive step raises
`KeyError` (the response to the malformed `.../artists/None/top-tracks`
request carries no `tracks` key) instead of indicating that no artist
was found; when the search does find an artist, the top tracks are
printed. -/
theorem interactive_lookup_not_found_raises :
    interactiveLookup "Unknown" [] (fun _ => none) = .error .keyError ∧
    interactiveLookup "Powerwolf" ["pw0"]
        (fun u => if u = "https://api.spotify.com/v1/artists/pw0/top-tracks"
          then some ["Song A", "Song B"] else none) =
      .ok ["\nHere are the top tracks of Powerwolf:", "1. Song A", "2. Song B"] :=
  ⟨rfl, rfl⟩

/-! ## C6 — the album filter of `get_album_names` -/

theorem albumsLoop_eq (name : String) :
    ∀ rgs : List ReleaseGroup, (∀ rg ∈ rgs, rg.artistCredit ≠ []) →
      albumsLoop name rgs =
        .ok ((rgs.filter (fun rg => rg.artistCredit.headD "" == name)).map
          (fun rg => rg.title))
  | [], _ => rfl
  | rg :: rest, h => by
    have hrg : rg.artistCredit ≠ [] := h rg (List.mem_cons_self rg rest)
    have hrest := albumsLoop_eq name rest (fun x hx => h x (List.mem_cons_of_mem rg hx))
    cases hc : rg.artistCredit with
    | nil => exact absurd hc hrg
    | cons first others =>
      unfold albumsLoop
      rw [hc, hrest, List.filter_cons]
      by_cases hfn : first = name
      · simp [hc, hfn]
      · simp [hc, hfn]

/-- C6: for a well-formed release-group payload (every release-group
has a non-empty `artist-credit`), `get_album_names` returns exactly the
titles of the release-groups whose first credited artist name equals
the queried name (case-sensitive string equality), in payload order. -/
theorem get_album_names_filter (name : String) (rgs : List ReleaseGroup)
    (h : ∀ rg ∈ rgs, rg.artistCredit ≠ []) :
    get_album_names name (some (some rgs)) =
      .ok ((rgs.filter (fun rg => rg.artistCredit.headD "" == name)).map
        (fun rg => rg.title)) :=
  albumsLoop_eq name rgs h

/-- C6, witness: on a payload whose release-groups are credited to
`"Artist A"` and `"Artist B"`, querying `"Artist A"` returns exactly
Artist A's titles, in order. -/
theorem get_album_names_filter_witness :
    (∀ rg ∈ [ReleaseGroup.mk ["Artist A"] "A1", ReleaseGroup.mk ["Artist B"] "B1",
        ReleaseGroup.mk ["Artist A", "Feat"] "A2"], rg.artistCredit ≠ []) ∧
    get_album_names "Artist A"
        (some (some [ReleaseGroup.mk ["Artist A"] "A1", ReleaseGroup.mk ["Artist B"] "B1",
          ReleaseGroup.mk ["Artist A", "Feat"] "A2"])) =
      .ok ["A1", "A2"] := by
  exact ⟨by decide, (get_album_names_filter "Artist A" _ (by decide)).trans rfl⟩

/-! ## C7 — equal lengths and row-wise correspondence of the scraped lists -/

theorem processDate_ok (s : String) (h : hasOcc [' '] s.data = true) :
    processDate s = .ok (processedDate s) := by
  unfold hasOcc at h
  cases hd : dropThrough [' '] s.data with
  | none => rw [hd] at h; exact absurd h (by simp)
  | some r =>
    unfold processDate splitSecond processedDate
    rw [hd]
    rfl

theorem mapM_processDate : ∀ (ds : List String),
    (∀ d ∈ ds, hasOcc [' '] d.data = true) →
    ds.mapM processDate = Except.ok (ds.map processedDate)
  | [], _ => rfl
  | d :: ds, h => by
    rw [List.mapM_cons, processDate_ok d (h d (List.mem_cons_self d ds)),
      mapM_processDate ds (fun x hx => h x (List.mem_cons_of_mem d hx))]
    rfl

theorem collect_data_ok : ∀ (months : List MonthSection),
    (∀ m ∈ months, ∀ d ∈ m.dateCells, hasOcc [' '] d.data = true) →
    collect_data months = .ok
      (months.flatMap (fun m => m.dateCells.map processedDate),
       months.flatMap (fun m => m.artistCells.map processArtist),
       months.flatMap (fun m => m.locationCells.map processLocation))
  | [], _ => rfl
  | m :: rest, h => by
    unfold collect_data
    rw [mapM_processDate m.dateCells (h m (List.mem_cons_self m rest)),
      collect_data_ok rest (fun x hx => h x (List.mem_cons_of_mem m hx))]
    simp

theorem month_zip_proj (m : MonthSection)
    (h1 : m.dateCells.length = m.artistCells.length)
    (h2 : m.artistCells.length = m.locationCells.length) :
    (m.dateCells.zip (m.artistCells.zip m.locationCells)).map (fun e => e.1)
        = m.dateCells
    ∧ (m.dateCells.zip (m.artistCells.zip m.locationCells)).map (fun e => e.2.1)
        = m.artistCells
    ∧ (m.dateCells.zip (m.artistCells.zip m.locationCells)).map (fun e => e.2.2)
        = m.locationCells := by
  have hz : (m.artistCells.zip m.locationCells).length = m.dateCells.length := by
    rw [List.length_zip]
    omega
  have hsnd : (m.dateCells.zip (m.artistCells.zip m.locationCells)).map (fun e => e.2)
      = m.artistCells.zip m.locationCells := by
    have := List.map_snd_zip m.dateCells (m.artistCells.zip m.locationCells) (by omega)
    simpa [Function.comp_def] using this
  refine ⟨?_, ?_, ?_⟩
  · have := List.map_fst_zip m.dateCells (m.artistCells.zip m.locationCells) (by omega)
    simpa [Function.comp_def] using this
  · have hfst := List.map_fst_zip m.artistCells m.locationCells (by omega)
    calc (m.dateCells.zip (m.artistCells.zip m.locationCells)).map (fun e => e.2.1)
        = ((m.dateCells.zip (m.artistCells.zip m.locationCells)).map
            (fun e => e.2)).map (fun p => p.1) := by
          rw [List.map_map]
          rfl
      _ = m.artistCells := by rw [hsnd]; simpa [Function.comp_def] using hfst
  · have hsnd2 := List.map_snd_zip m.artistCells m.locationCells (by omega)
    calc (m.dateCells.zip (m.artistCells.zip m.locationCells)).map (fun e => e.2.2)
        = ((m.dateCells.zip (m.artistCells.zip m.locationCells)).map
            (fun e => e.2)).map (fun p => p.2) := by
          rw [List.map_map]
          rfl
      _ = m.locationCells := by rw [hsnd]; simpa [Function.comp_def] using hsnd2

theorem sourceEntries_proj (months : List MonthSection)
    (hlen : ∀ m ∈ months, m.dateCells.length = m.artistCells.length
      ∧ m.artistCells.length = m.locationCells.length)
    {β : Type} (f : String → β) :
    ((sourceEntries months).map (fun e => f e.1)
        = months.flatMap (fun m => m.dateCells.map f))
    ∧ ((sourceEntries months).map (fun e => f e.2.1)
        = months.flatMap (fun m => m.artistCells.map f))
    ∧ ((sourceEntries months).map (fun e => f e.2.2)
        = months.flatMap (fun m => m.locationCells.map f)) := by
  unfold sourceEntries
  rw [List.map_flatMap, List.map_flatMap, List.map_flatMap]
  refine ⟨List.flatMap_congr ?_, List.flatMap_congr ?_, List.flatMap_congr ?_⟩ <;>
    intro m hm <;>
    obtain ⟨p1, p2, p3⟩ := month_zip_proj m (hlen m hm).1 (hlen m hm).2
  · rw [show (fun e : String × String × String => f e.1)
      = (fun x => f x) ∘ (fun e : String × String × String => e.1) from rfl,
      ← List.map_map, p1]
  · rw [show (fun e : String × String × String => f e.2.1)
      = (fun x => f x) ∘ (fun e : String × String × String => e.2.1) from rfl,
      ← List.map_map, p2]
  · rw [show (fun e : String × String × String => f e.2.2)
      = (fun x => f x) ∘ (fun e : String × String × String => e.2.2) from rfl,
      ← List.map_map, p3]

theorem sourceEntries_date_mem (months : List MonthSection)
    (hdate : ∀ m ∈ months, ∀ d ∈ m.dateCells, hasOcc [' '] d.data = true) :
    ∀ e ∈ sourceEntries months, hasOcc [' '] e.1.data = true := by
  intro e he
  unfold sourceEntries at he
  rw [List.mem_flatMap] at he
  obtain ⟨m, hm, hz⟩ := he
  have := (List.of_mem_zip hz).1
  exact hdate m hm e.1 this

/-- C7: on a well-formed page — every month section has equally many
date, artist and location sub-elements, and every date cell splits on a
space — `collect_data` succeeds, the three lists it builds all have the
length of the source entry list, and the `i`-th date, artist and
location are the processed fields of the `i`-th concert entry in source
order. -/
theorem collect_data_rowwise (months : List MonthSection)
    (hlen : ∀ m ∈ months, m.dateCells.length = m.artistCells.length
      ∧ m.artistCells.length = m.locationCells.length)
    (hdate : ∀ m ∈ months, ∀ d ∈ m.dateCells, hasOcc [' '] d.data = true) :
    ∃ ds as ls, collect_data months = .ok (ds, as, ls)
      ∧ ds.length = (sourceEntries months).length
      ∧ as.length = (sourceEntries months).length
      ∧ ls.length = (sourceEntries months).length
      ∧ (∀ i (hi : i < (sourceEntries months).length) (h1 : i < ds.length)
          (h2 : i < as.length) (h3 : i < ls.length),
          processDate (sourceEntries months)[i].1 = .ok ds[i]
          ∧ as[i] = processArtist (sourceEntries months)[i].2.1
          ∧ ls[i] = processLocation (sourceEntries months)[i].2.2) := by
  refine ⟨(sourceEntries months).map (fun e => processedDate e.1),
    (sourceEntries months).map (fun e => processArtist e.2.1),
    (sourceEntries months).map (fun e => processLocation e.2.2),
    ?_, by simp, by simp, by simp, ?_⟩
  · rw [collect_data_ok months hdate,
      (sourceEntries_proj months hlen processedDate).1,
      (sourceEntries_proj months hlen processArtist).2.1,
      (sourceEntries_proj months hlen processLocation).2.2]
  · intro i hi h1 h2 h3
    refine ⟨?_, by simp, by simp⟩
    rw [List.getElem_map]
    exact processDate_ok _ (sourceEntries_date_mem months hdate _ (List.getElem_mem hi))

/-- C7, witness: a two-month page with matching cell counts produces
three lists of length 3 whose rows correspond positionally to the
source entries. -/
theorem collect_data_rowwise_witness :
    (∀ m ∈ [MonthSection.mk ["Mi. 01.05.2024", "Do. 02.05.2024"]
        ["A live", "B live in town"] ["Arena, Wien", "Gasometer"],
      MonthSection.mk ["Fr. 07.06.2024"] ["C"] ["Flex"]],
      m.dateCells.length = m.artistCells.length
        ∧ m.artistCells.length = m.locationCells.length) ∧
    (∃ ds as ls, collect_data [MonthSection.mk ["Mi. 01.05.2024", "Do. 02.05.2024"]
        ["A live", "B live in town"] ["Arena, Wien", "Gasometer"],
      MonthSection.mk ["Fr. 07.06.2024"] ["C"] ["Flex"]] = .ok (ds, as, ls)
      ∧ ds.length = (sourceEntries [MonthSection.mk ["Mi. 01.05.2024", "Do. 02.05.2024"]
          ["A live", "B live in town"] ["Arena, Wien", "Gasometer"],
        MonthSection.mk ["Fr. 07.06.2024"] ["C"] ["Flex"]]).length
      ∧ as.length = (sourceEntries [MonthSection.mk ["Mi. 01.05.2024", "Do. 02.05.2024"]
          ["A live", "B live in town"] ["Arena, Wien", "Gasometer"],
        MonthSection.mk ["Fr. 07.06.2024"] ["C"] ["Flex"]]).length
      ∧ ls.length = (sourceEntries [MonthSection.mk ["Mi. 01.05.2024", "Do. 02.05.2024"]
          ["A live", "B live in town"] ["Arena, Wien", "Gasometer"],
        MonthSection.mk ["Fr. 07.06.2024"] ["C"] ["Flex"]]).length
      ∧ (∀ i (hi : i < (sourceEntries [MonthSection.mk ["Mi. 01.05.2024", "Do. 02.05.2024"]
            ["A live", "B live in town"] ["Arena, Wien", "Gasometer"],
          MonthSection.mk ["Fr. 07.06.2024"] ["C"] ["Flex"]]).length)
          (h1 : i < ds.length) (h2 : i < as.length) (h3 : i < ls.length),
          processDate (sourceEntries [MonthSection.mk ["Mi. 01.05.2024", "Do. 02.05.2024"]
              ["A live", "B live in town"] ["Arena, Wien", "Gasometer"],
            MonthSection.mk ["Fr. 07.06.2024"] ["C"] ["Flex"]])[i].1 = .ok ds[i]
          ∧ as[i] = processArtist (sourceEntries [MonthSection.mk
              ["Mi. 01.05.2024", "Do. 02.05.2024"] ["A live", "B live in town"]
              ["Arena, Wien", "Gasometer"],
            MonthSection.mk ["Fr. 07.06.2024"] ["C"] ["Flex"]])[i].2.1
          ∧ ls[i] = processLocation (sourceEntries [MonthSection.mk
              ["Mi. 01.05.2024", "Do. 02.05.2024"] ["A live", "B live in town"]
              ["Arena, Wien", "Gasometer"],
            MonthSection.mk ["Fr. 07.06.2024"] ["C"] ["Flex"]])[i].2.2)) :=
  ⟨by decide, collect_data_rowwise _ (by decide) (by decide)⟩

/-! ## C8 — the date format round-trips -/

theorem digCh_charVal (c : Char) (h : isDig c = true) : digCh (charVal c) = c := by
  unfold isDig at h
  have h1 : 48 ≤ c.toNat := by
    simp only [Bool.and_eq_true, decide_eq_true_eq] at h
    exact h.1
  unfold digCh charVal
  rw [show 48 + (c.toNat - 48) = c.toNat by omega]
  exact Char.ofNat_toNat c

theorem charVal_le_nine (c : Char) (h : isDig c = true) : charVal c ≤ 9 := by
  unfold isDig at h
  simp only [Bool.and_eq_true, decide_eq_true_eq] at h
  unfold charVal
  omega

/-- C8: parsing a valid zero-padded `dd.mm.yyyy` string with the
scraper's date format and rendering the parsed calendar date back with
the same format reproduces the original string. -/
theorem parse_format_roundtrip (s : String) (d m y : Nat)
    (h : parseDate s = some (d, m, y)) : formatDate d m y = s := by
  obtain ⟨l⟩ := s
  unfold parseDate at h
  split at h
  case h_2 => exact absurd h (by simp)
  case h_1 d1 d2 p1 m1 m2 p2 y1 y2 y3 y4 heq =>
    split at h
    case isFalse => exact absurd h (by simp)
    case isTrue hcond =>
      dsimp only at h
      split at h
      case isFalse => exact absurd h (by simp)
      case isTrue hval =>
        obtain ⟨hp1, hp2, h3, h4, h5, h6, h7, h8, h9, h10⟩ := hcond
        simp only [Option.some.injEq, Prod.mk.injEq] at h
        obtain ⟨hd, hm, hy⟩ := h
        have b3 := charVal_le_nine d1 h3
        have b4 := charVal_le_nine d2 h4
        have b5 := charVal_le_nine m1 h5
        have b6 := charVal_le_nine m2 h6
        have b7 := charVal_le_nine y1 h7
        have b8 := charVal_le_nine y2 h8
        have b9 := charVal_le_nine y3 h9
        have b10 := charVal_le_nine y4 h10
        have hsl : (String.mk l).data = l := rfl
        rw [hsl] at heq
        subst heq hp1 hp2 hd hm hy
        unfold formatDate
        congr 1
        rw [show (10 * charVal d1 + charVal d2) / 10 = charVal d1 by omega,
          show (10 * charVal d1 + charVal d2) % 10 = charVal d2 by omega,
          show (10 * charVal m1 + charVal m2) / 10 = charVal m1 by omega,
          show (10 * charVal m1 + charVal m2) % 10 = charVal m2 by omega,
          show (1000 * charVal y1 + 100 * charVal y2 + 10 * charVal y3 + charVal y4) / 1000
            = charVal y1 by omega,
          show (1000 * charVal y1 + 100 * charVal y2 + 10 * charVal y3 + charVal y4) / 100 % 10
            = charVal y2 by omega,
          show (1000 * charVal y1 + 100 * charVal y2 + 10 * charVal y3 + charVal y4) / 10 % 10
            = charVal y3 by omega,
          show (1000 * charVal y1 + 100 * charVal y2 + 10 * charVal y3 + charVal y4) % 10
            = charVal y4 by omega,
          digCh_charVal d1 h3, digCh_charVal d2 h4, digCh_charVal m1 h5,
          digCh_charVal m2 h6, digCh_charVal y1 h7, digCh_charVal y2 h8,
          digCh_charVal y3 h9, digCh_charVal y4 h10]

/-- C8, witness: `"01.05.2024"` parses to the 1st of May 2024, which
formats back to `"01.05.2024"`. -/
theorem parse_format_roundtrip_witness :
    parseDate "01.05.2024" = some (1, 5, 2024) ∧ formatDate 1 5 2024 = "01.05.2024" :=
  ⟨by decide, parse_format_roundtrip "01.05.2024" 1 5 2024 (by decide)⟩

/-! ## Lookup and deduplication lemmas -/

theorem findIdx?_none_of_all {α : Type} (p : α → Bool) :
    ∀ (l : List α), (∀ x ∈ l, p x = false) → ∀ i, List.findIdx? p l i = none
  | [], _, _ => List.findIdx?_nil
  | a :: l, h, i => by
    rw [List.findIdx?_cons, h a (List.mem_cons_self a l),
      findIdx?_none_of_all p l (fun x hx => h x (List.mem_cons_of_mem a hx)) (i + 1)]
    rfl

theorem lookupId_none (names : List String) (k : String) (h : ∀ x ∈ names, x ≠ k) :
    lookupId names k = none := by
  unfold lookupId
  rw [findIdx?_none_of_all _ names (fun x hx => by simpa using h x hx) 0]
  rfl

theorem lookupArtist_none (rows : List ArtistRow) (k : String)
    (h : ∀ r ∈ rows, r.artist_name ≠ k) : lookupArtist rows k = none := by
  unfold lookupArtist
  rw [findIdx?_none_of_all _ rows (fun r hr => by simpa using h r hr) 0]
  rfl

theorem append_map_getElem? {α β : Type} (l : List β) (f : α → β) (d : List α)
    (i : Nat) (hi : i < d.length) : (l ++ d.map f)[l.length + i]? = some (f d[i]) := by
  rw [List.getElem?_append_right (by omega)]
  rw [show l.length + i - l.length = i by omega]
  rw [List.getElem?_map, List.getElem?_eq_getElem (by simpa using hi)]
  simp

theorem mem_pyUniqueAux {α : Type} [DecidableEq α] :
    ∀ (l seen : List α) (x : α), x ∈ pyUniqueAux seen l ↔ x ∈ l ∧ x ∉ seen
  | [], seen, x => by simp [pyUniqueAux]
  | a :: xs, seen, x => by
    unfold pyUniqueAux
    by_cases ha : a ∈ seen
    · rw [if_pos ha, mem_pyUniqueAux xs seen x]
      simp only [List.mem_cons]
      constructor
      · rintro ⟨h1, h2⟩
        exact ⟨Or.inr h1, h2⟩
      · rintro ⟨h1 | h1, h2⟩
        · exact absurd ha (h1 ▸ h2)
        · exact ⟨h1, h2⟩
    · rw [if_neg ha]
      simp only [List.mem_cons, mem_pyUniqueAux xs (a :: seen) x, List.mem_cons]
      constructor
      · rintro (rfl | ⟨h1, h2⟩)
        · exact ⟨Or.inl rfl, ha⟩
        · exact ⟨Or.inr h1, fun hx => h2 (Or.inr hx)⟩
      · rintro ⟨rfl | h1, h2⟩
        · exact Or.inl rfl
        · by_cases hxa : x = a
          · exact Or.inl hxa
          · exact Or.inr ⟨h1, fun hx => hx.elim hxa h2⟩

theorem mem_pyUnique {α : Type} [DecidableEq α] (l : List α) (x : α) :
    x ∈ pyUnique l ↔ x ∈ l := by
  rw [pyUnique, mem_pyUniqueAux]
  simp

theorem pyUniqueAux_nodup {α : Type} [DecidableEq α] :
    ∀ (l seen : List α), (pyUniqueAux seen l).Nodup
  | [], _ => by simp [pyUniqueAux]
  | a :: xs, seen => by
    unfold pyUniqueAux
    by_cases ha : a ∈ seen
    · rw [if_pos ha]
      exact pyUniqueAux_nodup xs seen
    · rw [if_neg ha]
      refine List.nodup_cons.mpr ⟨?_, pyUniqueAux_nodup xs (a :: seen)⟩
      rw [mem_pyUniqueAux]
      rintro ⟨-, h2⟩
      exact h2 (List.mem_cons_self a seen)

theorem pyUnique_nodup {α : Type} [DecidableEq α] (l : List α) : (pyUnique l).Nodup :=
  pyUniqueAux_nodup l []

/-! ## C3 — null foreign keys on lookup misses, no raise -/

/-- C3: the fill operations are total on every input — each dictionary
item / DataFrame row yields exactly one inserted row, whose foreign-key
columns carry the lookup results — and a lookup by a name with no
exactly-matching parent row (or by a `None` area) yields `none`, which
is inserted as the null foreign key of the dependent row. -/
theorem fill_null_fk_on_miss (st : DBState) (dicti : List (String × ArtistMeta))
    (df : List SourceRow) :
    ((fill_artists_table st dicti).artists.length = st.artists.length + dicti.length
      ∧ (fill_concerts_table st df).concerts_data.length
          = st.concerts_data.length + df.length)
    ∧ (∀ i (hi : i < dicti.length),
        (fill_artists_table st dicti).artists[st.artists.length + i]? =
          some ⟨lookupIdOpt st.areas dicti[i].2.area, dicti[i].1, dicti[i].2.mb_id⟩)
    ∧ (∀ i (hi : i < df.length),
        (fill_concerts_table st df).concerts_data[st.concerts_data.length + i]? =
          some ⟨lookupId st.locations df[i].location,
            lookupArtist st.artists df[i].artist, df[i].date⟩)
    ∧ (∀ a, (∀ x ∈ st.areas, x ≠ a) → lookupIdOpt st.areas (some a) = none)
    ∧ lookupIdOpt st.areas none = none
    ∧ (∀ l, (∀ x ∈ st.locations, x ≠ l) → lookupId st.locations l = none)
    ∧ (∀ n, (∀ r ∈ st.artists, r.artist_name ≠ n) → lookupArtist st.artists n = none) := by
  refine ⟨⟨by simp [fill_artists_table], by simp [fill_concerts_table]⟩, ?_, ?_, ?_, rfl, ?_, ?_⟩
  · intro i hi
    exact append_map_getElem? st.artists _ dicti i hi
  · intro i hi
    exact append_map_getElem? st.concerts_data _ df i hi
  · intro a ha
    exact lookupId_none st.areas a ha
  · intro l hl
    exact lookupId_none st.locations l hl
  · intro n hn
    exact lookupArtist_none st.artists n hn

/-- C3, witness: on a state whose areas table holds only `"Austria"`,
whose locations table holds only `"Arena"` and whose artists table
holds only `"X"`, inserting an artist with the unmatched area
`"Nowhere"` and a concert with the unmatched location `"Closed Club"`
and unmatched artist `"Z"` succeeds, with null foreign keys. -/
theorem fill_null_fk_on_miss_witness :
    (∀ x ∈ ["Austria"], x ≠ "Nowhere") ∧
    lookupIdOpt ["Austria"] (some "Nowhere") = none ∧
    (fill_artists_table ⟨["Arena"], ["Austria"], [⟨some 1, "X", none⟩], [], []⟩
        [("Y", ⟨some "Nowhere", none⟩)]).artists[1]? = some ⟨none, "Y", none⟩ ∧
    (fill_concerts_table ⟨["Arena"], ["Austria"], [⟨some 1, "X", none⟩], [], []⟩
        [⟨"01.05.2024", "Z", "Closed Club"⟩]).concerts_data[0]? =
      some ⟨none, none, "01.05.2024"⟩ := by
  have h := fill_null_fk_on_miss ⟨["Arena"], ["Austria"], [⟨some 1, "X", none⟩], [], []⟩
    [("Y", ⟨some "Nowhere", none⟩)] [⟨"01.05.2024", "Z", "Closed Club"⟩]
  exact ⟨by decide, h.2.2.2.1 "Nowhere" (by decide),
    h.2.1 0 (by decide), h.2.2.1 0 (by decide)⟩

/-! ## C10 — the areas table holds exactly the non-null areas, once each -/

/-- C10: in the persisted state, the areas table is duplicate-free and
holds exactly the area names that enrichment resolved for some scraped
artist (`None` areas are dropped before `fill_areas_table`), and every
artist whose enrichment returned no area gets a null `area_id` in the
artists table. -/
theorem areas_nonnull_unique (rows : List SourceRow) (meta : String → ArtistMeta)
    (albumsOf : String → List String) :
    (runPipeline rows meta albumsOf).areas.Nodup
    ∧ (∀ x, x ∈ (runPipeline rows meta albumsOf).areas ↔
        ∃ a ∈ pyUnique (rows.map (fun r => r.artist)), (meta a).area = some x)
    ∧ (∀ r ∈ (runPipeline rows meta albumsOf).artists,
        (meta r.artist_name).area = none → r.area_id = none) := by
  have hareas : (runPipeline rows meta albumsOf).areas =
      areasListOf ((pyUnique (rows.map (fun r => r.artist))).map (fun a => (a, meta a))) := by
    simp [runPipeline, fill_locations_table, fill_areas_table, fill_artists_table,
      fill_albums_table, fill_concerts_table]
  have hartists : (runPipeline rows meta albumsOf).artists =
      ((pyUnique (rows.map (fun r => r.artist))).map (fun a => (a, meta a))).map
        (fun e => ⟨lookupIdOpt (areasListOf ((pyUnique (rows.map (fun r => r.artist))).map
          (fun a => (a, meta a)))) e.2.area, e.1, e.2.mb_id⟩) := by
    simp [runPipeline, fill_locations_table, fill_areas_table, fill_artists_table,
      fill_albums_table, fill_concerts_table, areasListOf]
  refine ⟨?_, ?_, ?_⟩
  · rw [hareas]
    exact pyUnique_nodup _
  · intro x
    rw [hareas]
    unfold areasListOf
    rw [mem_pyUnique]
    simp only [List.map_map, List.mem_filterMap, List.mem_map, id_eq, Function.comp_def]
    constructor
    · rintro ⟨o, ⟨a, ha, rfl⟩, ho⟩
      exact ⟨a, ha, ho⟩
    · rintro ⟨a, ha, hx⟩
      exact ⟨(meta a).area, ⟨a, ha, rfl⟩, hx⟩
  · intro r hr hnone
    rw [hartists] at hr
    simp only [List.mem_map] at hr
    obtain ⟨e, ⟨a, _, rfl⟩, rfl⟩ := hr
    simp only at hnone ⊢
    rw [hnone]
    rfl

/-- C10, witness: on a two-artist scrape where enrichment resolves an
area only for `"X"`, the areas table is `["Austria"]` (duplicate-free,
`"Austria"` present exactly because `"X"` resolved to it) and the row
of `"Y"` (no area) has a null `area_id`. -/
theorem areas_nonnull_unique_witness :
    (runPipeline [⟨"d1", "X", "L1"⟩, ⟨"d2", "Y", "L2"⟩]
        (fun a => if a = "X" then ⟨some "Austria", none⟩ else ⟨none, none⟩)
        (fun _ => [])).areas.Nodup
    ∧ ("Austria" ∈ (runPipeline [⟨"d1", "X", "L1"⟩, ⟨"d2", "Y", "L2"⟩]
        (fun a => if a = "X" then ⟨some "Austria", none⟩ else ⟨none, none⟩)
        (fun _ => [])).areas ↔
        ∃ a ∈ pyUnique ([⟨"d1", "X", "L1"⟩, ⟨"d2", "Y", "L2"⟩].map
          (fun r : SourceRow => r.artist)),
          ((fun a => if a = "X" then (⟨some "Austria", none⟩ : ArtistMeta)
            else ⟨none, none⟩) a).area = some "Austria")
    ∧ ((ArtistRow.mk none "Y" none) ∈ (runPipeline [⟨"d1", "X", "L1"⟩, ⟨"d2", "Y", "L2"⟩]
        (fun a => if a = "X" then ⟨some "Austria", none⟩ else ⟨none, none⟩)
        (fun _ => [])).artists
      ∧ (ArtistRow.mk none "Y" none).area_id = none) := by
  have h := areas_nonnull_unique [⟨"d1", "X", "L1"⟩, ⟨"d2", "Y", "L2"⟩]
    (fun a => if a = "X" then ⟨some "Austria", none⟩ else ⟨none, none⟩) (fun _ => [])
  refine ⟨h.1, h.2.1 "Austria", ?_, rfl⟩
  decide

/-! ## C1 — end-to-end scenario -/

/-- C1: running the database section of `main.py` on a scrape of three
concerts — artist `X` on two dates, artist `Y` on one date, at the two
locations `L1`, `L2` — where enrichment resolves area `"Austria"` for
`X` and no area for `Y`, persists exactly 2 location rows, 1 area row,
2 artist rows (`Y`'s with a null `area_id`) and 3 concert rows, and
every non-null foreign key in artists, albums and concerts_data
references the parent row whose name matches the source record. -/
theorem pipeline_end_to_end (X Y L1 L2 d1 d2 d3 mbX mbY albX : String)
    (hXY : X ≠ Y) (hL : L1 ≠ L2) :
    let rows : List SourceRow := [⟨d1, X, L1⟩, ⟨d2, X, L2⟩, ⟨d3, Y, L2⟩]
    let meta : String → ArtistMeta :=
      fun a => if a = X then ⟨some "Austria", some mbX⟩ else ⟨none, some mbY⟩
    let albumsOf : String → List String := fun a => if a = X then [albX] else []
    let st := runPipeline rows meta albumsOf
    st = ⟨[L1, L2], ["Austria"],
       [⟨some 1, X, some mbX⟩, ⟨none, Y, some mbY⟩],
       [⟨some 1, some 1, d1⟩, ⟨some 2, some 1, d2⟩, ⟨some 2, some 2, d3⟩],
       [⟨some 1, albX⟩]⟩
    ∧ (∀ r ∈ st.artists, ∀ aid, r.area_id = some aid →
        st.areas[aid - 1]? = (meta r.artist_name).area)
    ∧ (∀ al ∈ st.albums, ∀ aid, al.artist_id = some aid →
        ∃ r, st.artists[aid - 1]? = some r ∧ al.album_name ∈ albumsOf r.artist_name)
    ∧ (∀ (i : Nat) (c : ConcertRow), st.concerts_data[i]? = some c →
        ∃ src : SourceRow, rows[i]? = some src ∧ c.date = src.date
          ∧ (∀ lid, c.location_id = some lid → st.locations[lid - 1]? = some src.location)
          ∧ (∀ aid, c.artist_id = some aid →
              ∃ r, st.artists[aid - 1]? = some r ∧ r.artist_name = src.artist)) := by
  have hst : runPipeline [⟨d1, X, L1⟩, ⟨d2, X, L2⟩, ⟨d3, Y, L2⟩]
      (fun a => if a = X then (⟨some "Austria", some mbX⟩ : ArtistMeta) else ⟨none, some mbY⟩)
      (fun a => if a = X then [albX] else []) =
      ⟨[L1, L2], ["Austria"],
       [⟨some 1, X, some mbX⟩, ⟨none, Y, some mbY⟩],
       [⟨some 1, some 1, d1⟩, ⟨some 2, some 1, d2⟩, ⟨some 2, some 2, d3⟩],
       [⟨some 1, albX⟩]⟩ := by
    simp [runPipeline, areasListOf, pyUnique, pyUniqueAux, fill_locations_table,
      fill_areas_table, fill_artists_table, fill_albums_table, fill_concerts_table,
      lookupId, lookupIdOpt, lookupArtist, List.findIdx?_cons, hXY, Ne.symm hXY,
      hL, Ne.symm hL]
  refine ⟨hst, ?_, ?_, ?_⟩
  · rw [hst]
    intro r hr aid haid
    simp only [List.mem_cons, List.not_mem_nil, or_false] at hr
    rcases hr with rfl | rfl
    · obtain rfl : (1 : Nat) = aid := by simpa using haid
      simp
    · simp at haid
  · rw [hst]
    intro al hal aid haid
    simp only [List.mem_cons, List.not_mem_nil, or_false] at hal
    subst hal
    obtain rfl : (1 : Nat) = aid := by simpa using haid
    exact ⟨⟨some 1, X, some mbX⟩, by simp, by simp⟩
  · rw [hst]
    intro i c hc
    rcases i with _ | (_ | (_ | n))
    · obtain rfl : (⟨some 1, some 1, d1⟩ : ConcertRow) = c := by simpa using hc
      refine ⟨⟨d1, X, L1⟩, by simp, rfl, ?_, ?_⟩
      · intro lid hlid
        obtain rfl : (1 : Nat) = lid := by simpa using hlid
        simp
      · intro aid haid
        obtain rfl : (1 : Nat) = aid := by simpa using haid
        exact ⟨⟨some 1, X, some mbX⟩, by simp, rfl⟩
    · obtain rfl : (⟨some 2, some 1, d2⟩ : ConcertRow) = c := by simpa using hc
      refine ⟨⟨d2, X, L2⟩, by simp, rfl, ?_, ?_⟩
      · intro lid hlid
        obtain rfl : (2 : Nat) = lid := by simpa using hlid
        simp
      · intro aid haid
        obtain rfl : (1 : Nat) = aid := by simpa using haid
        exact ⟨⟨some 1, X, some mbX⟩, by simp, rfl⟩
    · obtain rfl : (⟨some 2, some 2, d3⟩ : ConcertRow) = c := by simpa using hc
      refine ⟨⟨d3, Y, L2⟩, by simp, rfl, ?_, ?_⟩
      · intro lid hlid
        obtain rfl : (2 : Nat) = lid := by simpa using hlid
        simp
      · intro aid haid
        obtain rfl : (2 : Nat) = aid := by simpa using haid
        exact ⟨⟨none, Y, some mbY⟩, by simp, rfl⟩
    · simp at hc

/-- C1, witness: the scenario instantiated with concrete names. -/
theorem pipeline_end_to_end_witness :
    let rows : List SourceRow := [⟨"01.05.2024", "X", "L1"⟩, ⟨"02.05.2024", "X", "L2"⟩,
      ⟨"03.05.2024", "Y", "L2"⟩]
    let meta : String → ArtistMeta :=
      fun a => if a = "X" then ⟨some "Austria", some "mb-x"⟩ else ⟨none, some "mb-y"⟩
    let albumsOf : String → List String := fun a => if a = "X" then ["Album X"] else []
    let st := runPipeline rows meta albumsOf
    st = ⟨["L1", "L2"], ["Austria"],
       [⟨some 1, "X", some "mb-x"⟩, ⟨none, "Y", some "mb-y"⟩],
       [⟨some 1, some 1, "01.05.2024"⟩, ⟨some 2, some 1, "02.05.2024"⟩,
        ⟨some 2, some 2, "03.05.2024"⟩],
       [⟨some 1, "Album X"⟩]⟩
    ∧ (∀ r ∈ st.artists, ∀ aid, r.area_id = some aid →
        st.areas[aid - 1]? = (meta r.artist_name).area)
    ∧ (∀ al ∈ st.albums, ∀ aid, al.artist_id = some aid →
        ∃ r, st.artists[aid - 1]? = some r ∧ al.album_name ∈ albumsOf r.artist_name)
    ∧ (∀ (i : Nat) (c : ConcertRow), st.concerts_data[i]? = some c →
        ∃ src : SourceRow, rows[i]? = some src ∧ c.date = src.date
          ∧ (∀ lid, c.location_id = some lid → st.locations[lid - 1]? = some src.location)
          ∧ (∀ aid, c.artist_id = some aid →
              ∃ r, st.artists[aid - 1]? = some r ∧ r.artist_name = src.artist)) :=
  pipeline_end_to_end "X" "Y" "L1" "L2" "01.05.2024" "02.05.2024" "03.05.2024"
    "mb-x" "mb-y" "Album X" (by decide) (by decide)

end ConcertsVienna
